import Mathlib

/-!
Shallow embedding of the lightning-strike effect subsystem of the
overview-client repository:

* `LightningBoltEffect` phase clock (`src/effects/LightningBoltEffect/LightningBoltEffect.ts`),
* the procedural path / branch generator (`LightningStrikeLogic.ts`, `ZigZagEffect.ts`),
* `PointMarkerEffect` decay (`src/effects/PointMarkerEffect.ts`),
* the `LightningLayer` admission / eviction registry (`src/layers/LightningLayer.ts`).

Times and coordinates are rational numbers.  The external collaborators
(`Math.sin`, the square root used by THREE vector normalisation, and the
globe's `getCoords` mapping) are passed in as explicit function parameters,
so every definition is executable.  JavaScript `Map`s are association lists
in insertion order, as a real `Map` iterates.
-/

namespace OverviewClient

/-- A 3D point (`THREE.Vector3`). -/
structure Vec3 where
  x : ℚ
  y : ℚ
  z : ℚ
deriving DecidableEq, Repr

def Vec3.add (a b : Vec3) : Vec3 := ⟨a.x + b.x, a.y + b.y, a.z + b.z⟩

def Vec3.sub (a b : Vec3) : Vec3 := ⟨a.x - b.x, a.y - b.y, a.z - b.z⟩

def Vec3.smul (a : Vec3) (s : ℚ) : Vec3 := ⟨a.x * s, a.y * s, a.z * s⟩

def Vec3.dot (a b : Vec3) : ℚ := a.x * b.x + a.y * b.y + a.z * b.z

/-- `THREE.Vector3.cross`. -/
def Vec3.cross (a b : Vec3) : Vec3 :=
  ⟨a.y * b.z - a.z * b.y, a.z * b.x - a.x * b.z, a.x * b.y - a.y * b.x⟩

/-- `THREE.Vector3.normalize`: divide by the length.  The square root of the
external math library is passed in as `sqrtFn`. -/
def Vec3.normalize (sqrtFn : ℚ → ℚ) (a : Vec3) : Vec3 :=
  a.smul (1 / sqrtFn (a.dot a))

/-- `THREE.Vector3.lerpVectors a b t = a + (b - a) * t`. -/
def Vec3.lerp (a b : Vec3) (t : ℚ) : Vec3 := a.add ((b.sub a).smul t)

/-!  ### Seeded random generator (`createRandomGenerator`)

```js
export function createRandomGenerator(seed: number): () => number {
  return function() {
    const x = Math.sin(seed++) * 10000;
    return x - Math.floor(x);
  };
}
```

The closure's captured `seed` is the generator state; `Math.sin` is the
abstract parameter `sinFn`. -/

/-- One call of the generator returned by `createRandomGenerator`:
the drawn value together with the successor state. -/
def nextRandom (sinFn : ℚ → ℚ) (s : ℚ) : ℚ × ℚ :=
  (Int.fract (sinFn s * 10000), s + 1)

/-- `createRandomGenerator seed` captures `seed` as the initial state. -/
def createRandomGenerator (seed : ℚ) : ℚ := seed

/-- The sequence of values produced by repeated calls of the generator. -/
def randStream (sinFn : ℚ → ℚ) (s : ℚ) : ℕ → ℚ
  | 0 => (nextRandom sinFn s).1
  | n + 1 => randStream sinFn (nextRandom sinFn s).2 n

/-!  ### Globe collaborator and effect configuration -/

/-- The injected globe element: `getCoords(lat, lng, altitude)` maps
geographic coordinates to world space; `radiusParam` models
`_mainSphere.geometry.parameters.radius` when present. -/
structure Globe where
  getCoords : ℚ → ℚ → ℚ → Vec3
  radiusParam : Option ℚ

/-- `globeEl._mainSphere.geometry.parameters.radius || 100`, default 100. -/
def Globe.globeRadius (g : Globe) : ℚ :=
  match g.radiusParam with
  | none => 100
  | some r => if r = 0 then 100 else r

/-- The configuration fields of `LightningBoltEffectConfig` that the
generator and the phase clock read (the `ZigZagEffectConfig` of
`ZigZagEffect.ts` has the same fields). -/
structure LightningBoltEffectConfig where
  startAltitude : ℚ
  lineSegments : ℕ
  jitterAmount : ℚ
  branchChance : ℚ
  maxBranches : ℕ
  duration : ℚ
deriving DecidableEq, Repr

/-!  ### Path generator

`createLightningStrikeGeometry` of `LightningStrikeLogic.ts` and the
method `ZigZagEffect.createZigZagGeometry` share the interior loop
verbatim; they differ only in the final point: the bolt version pushes
`new THREE.Vector3(surfacePoint.x, -1.8, surfacePoint.z)` ("make sure it
extends all the way to the ground"), the zigzag version pushes
`surfacePoint` itself.  The generator state is threaded explicitly. -/

/-- One interior iteration of the path loop (`for (let i = 1; i < segments; i++)`):
damped random-walk jitter applied perpendicular to the main direction.
The accumulator is `(points so far, prevJitterX, prevJitterZ, rng state)`. -/
def interiorStep (cloudPoint surfacePoint sideways updown : Vec3)
    (jitterScale jitterAmount : ℚ) (segments : ℕ) (sinFn : ℚ → ℚ)
    (acc : List Vec3 × ℚ × ℚ × ℚ) (i : ℕ) : List Vec3 × ℚ × ℚ × ℚ :=
  let pts := acc.1
  let prevJX := acc.2.1
  let prevJZ := acc.2.2.1
  let rs := acc.2.2.2
  let t : ℚ := (i : ℚ) / (segments : ℚ)
  let pos := Vec3.lerp cloudPoint surfacePoint t
  let r1 := nextRandom sinFn rs
  let jitterX := prevJX + (r1.1 * 2 - 1) * jitterAmount
  let r2 := nextRandom sinFn r1.2
  let jitterZ := prevJZ + (r2.1 * 2 - 1) * jitterAmount
  let pullToCenter : ℚ := 3 / 10
  let prevJX := jitterX * (1 - pullToCenter)
  let prevJZ := jitterZ * (1 - pullToCenter)
  let pos := pos.add (sideways.smul (jitterX * jitterScale))
  let pos := pos.add (updown.smul (jitterZ * jitterScale))
  (pts ++ [pos], prevJX, prevJZ, r2.2)

/-- The orthonormal-ish basis used for the jitter plane: `sideways` and
`updown` perpendicular to the direction from the globe center. -/
def jitterBasis (sqrtFn : ℚ → ℚ) (directionVector : Vec3) : Vec3 × Vec3 :=
  let sideways :=
    if |directionVector.y| < 9 / 10 then
      Vec3.normalize sqrtFn (directionVector.cross ⟨0, 1, 0⟩)
    else
      Vec3.normalize sqrtFn (directionVector.cross ⟨0, 0, 1⟩)
  (sideways, Vec3.normalize sqrtFn (directionVector.cross sideways))

/-- `createLightningStrikeGeometry` (`LightningStrikeLogic.ts`): the main
path, returned as the ordered point list together with the generator state
after the call.  A missing globe element gives the empty geometry. -/
def createLightningStrikeGeometry (lat lng : ℚ) (globeEl : Option Globe)
    (config : LightningBoltEffectConfig) (sinFn sqrtFn : ℚ → ℚ) (rs : ℚ) :
    List Vec3 × ℚ :=
  match globeEl with
  | none => ([], rs)
  | some g =>
    let segments := config.lineSegments
    let globeRadius := g.globeRadius
    let surfacePoint := g.getCoords lat lng 0
    let cloudPoint := g.getCoords lat lng config.startAltitude
    let directionVector := Vec3.normalize sqrtFn (surfacePoint.sub ⟨0, 0, 0⟩)
    let basis := jitterBasis sqrtFn directionVector
    let jitterScale := globeRadius * (4 / 1000)
    let start : List Vec3 × ℚ × ℚ × ℚ :=
      ([⟨cloudPoint.x, cloudPoint.y, cloudPoint.z⟩], 0, 0, rs)
    let loopOut := (List.range' 1 (segments - 1)).foldl
      (interiorStep cloudPoint surfacePoint basis.1 basis.2
        jitterScale config.jitterAmount segments sinFn) start
    let groundPoint : Vec3 := ⟨surfacePoint.x, -(9 / 5), surfacePoint.z⟩
    (loopOut.1 ++ [groundPoint], loopOut.2.2.2)

/-- `ZigZagEffect.createZigZagGeometry` (`ZigZagEffect.ts`): identical to
`createLightningStrikeGeometry` except that the last point is the exact
surface position. -/
def createZigZagGeometry (lat lng : ℚ) (globeEl : Option Globe)
    (config : LightningBoltEffectConfig) (sinFn sqrtFn : ℚ → ℚ) (rs : ℚ) :
    List Vec3 × ℚ :=
  match globeEl with
  | none => ([], rs)
  | some g =>
    let segments := config.lineSegments
    let globeRadius := g.globeRadius
    let surfacePoint := g.getCoords lat lng 0
    let cloudPoint := g.getCoords lat lng config.startAltitude
    let directionVector := Vec3.normalize sqrtFn (surfacePoint.sub ⟨0, 0, 0⟩)
    let basis := jitterBasis sqrtFn directionVector
    let jitterScale := globeRadius * (4 / 1000)
    let start : List Vec3 × ℚ × ℚ × ℚ :=
      ([⟨cloudPoint.x, cloudPoint.y, cloudPoint.z⟩], 0, 0, rs)
    let loopOut := (List.range' 1 (segments - 1)).foldl
      (interiorStep cloudPoint surfacePoint basis.1 basis.2
        jitterScale config.jitterAmount segments sinFn) start
    (loopOut.1 ++ [⟨surfacePoint.x, surfacePoint.y, surfacePoint.z⟩], loopOut.2.2.2)

/-!  ### Branch generator (`createBranches`, `LightningStrikeLogic.ts`)

A branch is recorded as the loop index `i` of the main-path vertex it is
rooted at, together with its point list.  The loop runs
`for (let i = skipTop; i < segments - skipBottom && branchCount < maxBranches; i++)`
with `skipTop = skipBottom = Math.floor(segments * 0.15)`. -/

/-- The body run when the Bernoulli trial at vertex `i` succeeds: builds the
branch polyline (start point, 1–2 jittered intermediate points, end point). -/
def branchBody (g : Globe) (config : LightningBoltEffectConfig)
    (positions : List Vec3) (sinFn sqrtFn : ℚ → ℚ) (i : ℕ) (rs : ℚ) :
    (ℕ × List Vec3) × ℚ :=
  let branchScale := g.globeRadius * (5 / 1000)
  let startPoint := positions.getD i ⟨0, 0, 0⟩
  let dir := Vec3.normalize sqrtFn (startPoint.sub ⟨0, 0, 0⟩)
  let basis := jitterBasis sqrtFn dir
  let sideways := basis.1
  let updown := basis.2
  let r1 := nextRandom sinFn rs
  let randomSideways := (r1.1 * 2 - 1) * branchScale
  let downwardBias := (i : ℚ) / (config.lineSegments : ℚ)
  let r2 := nextRandom sinFn r1.2
  let randomDown := r2.1 * branchScale * (7 / 10) * downwardBias
  let branchDir := (sideways.smul randomSideways).add (updown.smul randomDown)
  let outwardAmount := branchScale * (3 / 10)
  let branchDir := branchDir.add (dir.smul outwardAmount)
  let endPoint := startPoint.add branchDir
  let r3 := nextRandom sinFn r2.2
  let subSegments := 1 + (⌊r3.1 * 2⌋).toNat
  let jitterSize := branchScale * (1 / 10)
  let mids := (List.range' 1 subSegments).foldl
    (fun (acc : List Vec3 × ℚ) j =>
      let t : ℚ := (j : ℚ) / ((subSegments : ℚ) + 1)
      let midPoint := Vec3.lerp startPoint endPoint t
      let ra := nextRandom sinFn acc.2
      let rb := nextRandom sinFn ra.2
      let jitterDir := (sideways.smul ((ra.1 * 2 - 1) * jitterSize)).add
        (updown.smul ((rb.1 * 2 - 1) * jitterSize))
      (acc.1 ++ [midPoint.add jitterDir], rb.2))
    ([], r3.2)
  ((i, [startPoint] ++ mids.1 ++ [endPoint]), mids.2)

/-- The branch loop: per remaining vertex one Bernoulli draw against
`branchChance`; stops as soon as `maxBranches` branches are emitted. -/
def branchesLoop (g : Globe) (config : LightningBoltEffectConfig)
    (positions : List Vec3) (sinFn sqrtFn : ℚ → ℚ) :
    List ℕ → List (ℕ × List Vec3) × ℚ → List (ℕ × List Vec3) × ℚ
  | [], acc => acc
  | i :: rest, acc =>
    if acc.1.length < config.maxBranches then
      let r := nextRandom sinFn acc.2
      if r.1 < config.branchChance then
        let b := branchBody g config positions sinFn sqrtFn i r.2
        branchesLoop g config positions sinFn sqrtFn rest (acc.1 ++ [b.1], b.2)
      else
        branchesLoop g config positions sinFn sqrtFn rest (acc.1, r.2)
    else acc

/-- `createBranches`: skips the first and last `Math.floor(segments * 0.15)`
vertices and emits at most `maxBranches` branches. -/
def createBranches (globeEl : Option Globe) (config : LightningBoltEffectConfig)
    (positions : List Vec3) (sinFn sqrtFn : ℚ → ℚ) (rs : ℚ) :
    List (ℕ × List Vec3) × ℚ :=
  match globeEl with
  | none => ([], rs)
  | some g =>
    let segments := config.lineSegments
    let skipTop := ⌊(segments : ℚ) * (15 / 100)⌋.toNat
    let skipBottom := ⌊(segments : ℚ) * (15 / 100)⌋.toNat
    let idxs := List.range' skipTop (segments - skipBottom - skipTop)
    branchesLoop g config positions sinFn sqrtFn idxs ([], rs)

/-!  ### Phase clock (`LightningBoltEffect`, `LightningBoltEffect.ts`)

`update(currentTime)` reads the wall clock (`performance.now() / 1000`,
seconds); we pass that clock value as the explicit argument `now`.
`duration` is in milliseconds as in the config. -/

/-- The animation state of one `LightningBoltEffect`: the fields read and
written by `update`, `updateSpeed` and `terminateImmediately`. -/
structure LightningBoltEffect where
  lat : ℚ
  lng : ℚ
  startTime : ℚ
  speed : ℚ
  duration : ℚ
  opacity : ℚ
  animationPhase : ℕ
  isTerminated : Bool
deriving DecidableEq, Repr

/-- `terminateImmediately`: zero the opacity and mark terminated
(the subclass zeroes the material opacity, then `BaseEffect` sets the
idempotent `isTerminated` flag and releases resources). -/
def LightningBoltEffect.terminateImmediately (e : LightningBoltEffect) :
    LightningBoltEffect :=
  { e with opacity := 0, isTerminated := true }

/-- `updateSpeed(speed)`: overwrite `config.speed`, nothing else. -/
def LightningBoltEffect.updateSpeed (e : LightningBoltEffect) (speed : ℚ) :
    LightningBoltEffect :=
  if e.speed = speed then e else { e with speed := speed }

/-- `LightningBoltEffect.update`: returns the alive flag and the updated
effect.  `speedFactor = this.config.speed || 1.0` (JavaScript `||`: only a
zero speed falls back to `1.0`). -/
def LightningBoltEffect.update (e : LightningBoltEffect) (now : ℚ) :
    Bool × LightningBoltEffect :=
  if e.isTerminated then (false, e)
  else
    let elapsedTime := now - e.startTime
    let speedFactor := if e.speed = 0 then 1 else e.speed
    let scaledTime := elapsedTime * speedFactor
    let totalDuration := e.duration / 1000
    if scaledTime > totalDuration then
      (false, e.terminateImmediately)
    else
      let phaseLength := totalDuration / 3
      if scaledTime < phaseLength then
        (true, { e with animationPhase := 1, opacity := scaledTime / phaseLength })
      else if scaledTime < phaseLength * 2 then
        (true, { e with animationPhase := 2, opacity := 1 })
      else
        (true, { e with animationPhase := 3,
                        opacity := max 0 (1 - (scaledTime - phaseLength * 2) / phaseLength) })

/-!  ### Marker effect (`PointMarkerEffect.ts`)

`update(currentTime)` works in milliseconds against `createTime = Date.now()`. -/

/-- The configuration fields of `PointMarkerConfig` read by `update`. -/
structure PointMarkerConfig where
  opacity : ℚ
  fadeInDuration : ℚ
  maxAge : ℚ
  fadeStartAge : ℚ
deriving DecidableEq, Repr

/-- The state of one `PointMarkerEffect`: creation time, configuration and
the material opacity it drives. -/
structure PointMarkerEffect where
  lat : ℚ
  lng : ℚ
  createTime : ℚ
  config : PointMarkerConfig
  opacity : ℚ
deriving DecidableEq, Repr

/-- `PointMarkerEffect.update`: fade in over `fadeInDuration`, hold at the
configured opacity until `fadeStartAge`, then linear fade to 0 by `maxAge`;
past `maxAge` the opacity is zeroed and `false` is returned. -/
def PointMarkerEffect.update (m : PointMarkerEffect) (currentTime : ℚ) :
    Bool × PointMarkerEffect :=
  let age := currentTime - m.createTime
  if age > m.config.maxAge then
    (false, { m with opacity := 0 })
  else if age < m.config.fadeInDuration then
    let fadeRatio := age / m.config.fadeInDuration
    (true, { m with opacity := min m.config.opacity (fadeRatio * m.config.opacity) })
  else if age < m.config.fadeStartAge then
    (true, { m with opacity := m.config.opacity })
  else
    let fadeRatio := 1 - (age - m.config.fadeStartAge) /
      (m.config.maxAge - m.config.fadeStartAge)
    (true, { m with opacity := max 0 (min m.config.opacity (fadeRatio * m.config.opacity)) })

/-- `PointMarkerEffect.terminateImmediately`: zero the opacity (and detach
from the scene). -/
def PointMarkerEffect.terminateImmediately (m : PointMarkerEffect) :
    PointMarkerEffect :=
  { m with opacity := 0 }

/-!  ### The effect registry (`LightningLayer`, `LightningLayer.ts`)

JavaScript `Map`s become association lists in insertion order; `Map.set`
overwrites in place when the key exists and appends otherwise, `Map.delete`
removes the entry with the key.  `Array.prototype.sort` is a stable sort,
modelled as the stable `List.insertionSort`.  The two `terminated…Ids` fields are observation logs: an
id is appended whenever the layer calls `terminateImmediately` on the
corresponding effect (forced termination); they let the theorems talk about
which effects the registry forcibly terminated. -/

/-- Entries of the `activeEffects` recency list: `{id, timestamp}`. -/
structure ActiveEffectRecord where
  id : String
  timestamp : ℚ
deriving DecidableEq, Repr

/-- A JavaScript `Map<string, α>` as an association list. -/
abbrev JsMap (α : Type) := List (String × α)

def mapHas {α : Type} (m : JsMap α) (k : String) : Bool :=
  m.any (fun e => decide (e.1 = k))

def mapGet? {α : Type} (m : JsMap α) (k : String) : Option α :=
  (m.find? (fun e => decide (e.1 = k))).map Prod.snd

def mapDelete {α : Type} (m : JsMap α) (k : String) : JsMap α :=
  m.filter (fun e => decide (e.1 ≠ k))

def mapSet {α : Type} (m : JsMap α) (k : String) (v : α) : JsMap α :=
  if mapHas m k then m.map (fun e => if e.1 = k then (k, v) else e)
  else m ++ [(k, v)]

/-- The configuration the layer reads when handling a strike: the two caps,
the `showLightningBolt` flag, whether the scene/globe collaborators are
present, layer visibility, and the values fed to new effects. -/
structure LightningLayerConfig where
  maxActiveAnimations : ℕ
  maxDisplayedStrikes : ℕ
  showLightningBolt : Bool
  hasScene : Bool
  visible : Bool
  boltConfig : LightningBoltEffectConfig
  markerOpacity : ℚ
deriving Repr

/-- The mutable state of a `LightningLayer`. -/
structure LightningLayerState where
  lightningBoltEffects : JsMap LightningBoltEffect
  markerEffects : JsMap PointMarkerEffect
  activeEffects : List ActiveEffectRecord
  terminatedBoltIds : List String
  terminatedMarkerIds : List String
deriving DecidableEq, Repr

def emptyLayerState : LightningLayerState :=
  { lightningBoltEffects := [], markerEffects := [], activeEffects := [],
    terminatedBoltIds := [], terminatedMarkerIds := [] }

/-- A strike event from the upstream stream. -/
structure StrikeEvent where
  id : String
  lat : ℚ
  lng : ℚ
  intensity : ℚ
deriving DecidableEq, Repr

/-- One eviction of `ensureMaxActiveEffects`: if a bolt effect with the id
is tracked, it is forcibly terminated and deleted. -/
def evictBoltStep (acc : JsMap LightningBoltEffect × List String)
    (id : String) : JsMap LightningBoltEffect × List String :=
  if mapHas acc.1 id then (mapDelete acc.1 id, acc.2 ++ [id]) else acc

/-- `ensureMaxActiveEffects`: sort the recency records newest-first; every
record beyond `maxActiveAnimations` has its bolt effect forcibly terminated
and removed, and the record list is truncated to the cap. -/
def ensureMaxActiveEffects (cfg : LightningLayerConfig)
    (st : LightningLayerState) : LightningLayerState :=
  let sorted := List.insertionSort
    (fun a b => b.timestamp ≤ a.timestamp) st.activeEffects
  if sorted.length > cfg.maxActiveAnimations then
    let removeIds := (sorted.drop cfg.maxActiveAnimations).map (fun e => e.id)
    let removed := removeIds.foldl evictBoltStep
      (st.lightningBoltEffects, st.terminatedBoltIds)
    { st with activeEffects := sorted.take cfg.maxActiveAnimations,
              lightningBoltEffects := removed.1,
              terminatedBoltIds := removed.2 }
  else
    { st with activeEffects := sorted }

/-- The `LightningBoltEffect` built on admission (`new LightningBoltEffect`):
opacity starts at 0, the wall clock stamps `startTime` (seconds), and the
layer's config carries no `speed` entry, so the default `1.0` applies. -/
def mkBoltEffect (cfg : LightningLayerConfig) (strike : StrikeEvent)
    (now : ℚ) : LightningBoltEffect :=
  { lat := strike.lat, lng := strike.lng, startTime := now / 1000, speed := 1,
    duration := cfg.boltConfig.duration, opacity := 0, animationPhase := 0,
    isTerminated := false }

/-- `createLightningBoltEffect`: no-op without scene/globe; an existing
effect with the same id is terminated and removed first; then the new
effect is stored, a recency record appended, and the active cap enforced. -/
def createLightningBoltEffect (cfg : LightningLayerConfig)
    (strike : StrikeEvent) (now : ℚ) (st : LightningLayerState) :
    LightningLayerState :=
  if !cfg.hasScene then st
  else
    let st :=
      if mapHas st.lightningBoltEffects strike.id then
        { st with
            lightningBoltEffects := mapDelete st.lightningBoltEffects strike.id,
            terminatedBoltIds := st.terminatedBoltIds ++ [strike.id] }
      else st
    let st := { st with
      lightningBoltEffects :=
        mapSet st.lightningBoltEffects strike.id (mkBoltEffect cfg strike now),
      activeEffects := st.activeEffects ++ [⟨strike.id, now⟩] }
    ensureMaxActiveEffects cfg st

/-- The `PointMarkerEffect` built on admission: `fadeInDuration` is 1500 ms
when the bolt is shown and 0 otherwise; `maxAge`/`fadeStartAge` come from
`DEFAULT_MARKER_CONFIG`. -/
def mkMarkerEffect (cfg : LightningLayerConfig) (strike : StrikeEvent)
    (now : ℚ) : PointMarkerEffect :=
  { lat := strike.lat, lng := strike.lng, createTime := now,
    config := { opacity := cfg.markerOpacity,
                fadeInDuration := if cfg.showLightningBolt then 1500 else 0,
                maxAge := 60000, fadeStartAge := 10000 },
    opacity := 0 }

/-- `createMarkerEffect`: no-op without scene/globe; replace semantics on a
duplicate id, then store the new marker. -/
def createMarkerEffect (cfg : LightningLayerConfig) (strike : StrikeEvent)
    (now : ℚ) (st : LightningLayerState) : LightningLayerState :=
  if !cfg.hasScene then st
  else
    let st :=
      if mapHas st.markerEffects strike.id then
        { st with
            markerEffects := mapDelete st.markerEffects strike.id,
            terminatedMarkerIds := st.terminatedMarkerIds ++ [strike.id] }
      else st
    { st with markerEffects :=
        mapSet st.markerEffects strike.id (mkMarkerEffect cfg strike now) }

/-- One removal step of `enforceMaxDisplayedStrikes`: terminate and delete
the marker, and terminate, delete and untrack any bolt with the same id. -/
def removeDisplayedStrike (st : LightningLayerState)
    (entry : String × PointMarkerEffect) : LightningLayerState :=
  let id := entry.1
  let st := { st with markerEffects := mapDelete st.markerEffects id,
                      terminatedMarkerIds := st.terminatedMarkerIds ++ [id] }
  if mapHas st.lightningBoltEffects id then
    { st with
        lightningBoltEffects := mapDelete st.lightningBoltEffects id,
        terminatedBoltIds := st.terminatedBoltIds ++ [id],
        activeEffects := st.activeEffects.filter (fun e => decide (e.id ≠ id)) }
  else st

/-- `enforceMaxDisplayedStrikes`: when over `maxDisplayedStrikes`, sort the
markers by creation time (oldest first) and remove the excess oldest ones. -/
def enforceMaxDisplayedStrikes (cfg : LightningLayerConfig)
    (st : LightningLayerState) : LightningLayerState :=
  if st.markerEffects.length ≤ cfg.maxDisplayedStrikes then st
  else
    let markers := List.insertionSort
      (fun a b => a.2.createTime ≤ b.2.createTime) st.markerEffects
    let removeCount := markers.length - cfg.maxDisplayedStrikes
    (markers.take removeCount).foldl removeDisplayedStrike st

/-- `addData(strike)`: admit one strike (bolt effect only when
`showLightningBolt`), then enforce the marker cap. -/
def addData (cfg : LightningLayerConfig) (strike : StrikeEvent) (now : ℚ)
    (st : LightningLayerState) : LightningLayerState :=
  let st :=
    if cfg.showLightningBolt then createLightningBoltEffect cfg strike now st
    else st
  let st := createMarkerEffect cfg strike now st
  enforceMaxDisplayedStrikes cfg st

/-- `LightningLayer.update(currentTime)`: update every bolt (wall clock in
seconds) and every marker (milliseconds), removing the ones that report
not-alive and untracking completed bolts. -/
def updateLayer (cfg : LightningLayerConfig) (now : ℚ)
    (st : LightningLayerState) : LightningLayerState :=
  if !cfg.visible then st
  else
    let boltResults := st.lightningBoltEffects.map
      (fun e => (e.1, e.2.update (now / 1000)))
    let completedIds : List String :=
      (boltResults.filter (fun r => !r.2.1)).map (fun r => r.1)
    let bolts := (boltResults.filter (fun r => r.2.1)).map (fun r => (r.1, r.2.2))
    let active := st.activeEffects.filter (fun e => decide (e.id ∉ completedIds))
    let markerResults := st.markerEffects.map (fun e => (e.1, e.2.update now))
    let markers := (markerResults.filter (fun r => r.2.1)).map (fun r => (r.1, r.2.2))
    { st with lightningBoltEffects := bolts, activeEffects := active,
              markerEffects := markers }

/-- A registry operation: an admission (`addData`) or a per-tick update. -/
inductive LayerOp where
  | add (strike : StrikeEvent) (now : ℚ)
  | tick (now : ℚ)

def applyOp (cfg : LightningLayerConfig) (st : LightningLayerState) :
    LayerOp → LightningLayerState
  | .add strike now => addData cfg strike now st
  | .tick now => updateLayer cfg now st

/-- Run a sequence of registry operations from the empty registry. -/
def runOps (cfg : LightningLayerConfig) (ops : List LayerOp) :
    LightningLayerState :=
  ops.foldl (applyOp cfg) emptyLayerState

/-!  ### Concrete instances used by the scenario theorems and witnesses -/

/-- A stand-in for `Math.sin` that always returns 0 (every generator draw
is then `fract 0 = 0`). -/
def zeroSin : ℚ → ℚ := fun _ => 0

/-- A concrete injected globe element for evaluation. -/
def testGlobe : Globe :=
  { getCoords := fun lat lng alt => ⟨lat, lng + alt, 0⟩, radiusParam := none }

/-- The Scenario D effect: `duration = 1500 ms`, `speedFactor = 1.0`,
started at wall-clock 0. -/
def scenarioDBolt : LightningBoltEffect :=
  { lat := 0, lng := 0, startTime := 0, speed := 1, duration := 1500,
    opacity := 0, animationPhase := 0, isTerminated := false }

/-- A freshly started bolt effect at `startTime = t0` with the given speed
and duration (as the constructor produces before any update). -/
def mkFreeBolt (t0 s D : ℚ) : LightningBoltEffect :=
  { lat := 0, lng := 0, startTime := t0, speed := s, duration := D,
    opacity := 0, animationPhase := 0, isTerminated := false }

/-- A bolt effect whose configured speed is negative. -/
def negSpeedBolt : LightningBoltEffect := mkFreeBolt 0 (-1) 1500

/-- A small geometry configuration (`lineSegments = 2`). -/
def smallBoltConfig : LightningBoltEffectConfig :=
  { startAltitude := 1 / 10, lineSegments := 2, jitterAmount := 1 / 50,
    branchChance := 2 / 5, maxBranches := 4, duration := 1000 }

/-- The branch-generation configuration of the branch counterexample:
8 segments and certain branching (`branchChance = 1`). -/
def branchCfg : LightningBoltEffectConfig :=
  { startAltitude := 1 / 50, lineSegments := 8, jitterAmount := 1 / 50,
    branchChance := 1, maxBranches := 4, duration := 1000 }

/-- A concrete 9-vertex main path (8 segments). -/
def mainPath9 : List Vec3 := List.replicate 9 ⟨0, 0, 0⟩

/-- A marker with the default fade timings and configured opacity `0.8`. -/
def fadeMarker : PointMarkerEffect :=
  { lat := 0, lng := 0, createTime := 0,
    config := { opacity := 4 / 5, fadeInDuration := 1500, maxAge := 60000,
                fadeStartAge := 10000 }, opacity := 0 }

/-- The layer configuration of Scenario A: `maxActiveAnimations = 10`, the
default `maxDisplayedStrikes = 256`, bolts shown, collaborators present. -/
def scenACfg : LightningLayerConfig :=
  { maxActiveAnimations := 10, maxDisplayedStrikes := 256,
    showLightningBolt := true, hasScene := true, visible := true,
    boltConfig := { startAltitude := 1 / 50, lineSegments := 8,
                    jitterAmount := 1 / 50, branchChance := 2 / 5,
                    maxBranches := 4, duration := 1000 },
    markerOpacity := 4 / 5 }

def scenAStrike (id : String) : StrikeEvent :=
  { id := id, lat := 0, lng := 0, intensity := 1 / 2 }

/-- Scenario A: 15 admissions with strictly increasing timestamps. -/
def scenAOps : List LayerOp :=
  [.add (scenAStrike "s1") 1, .add (scenAStrike "s2") 2,
   .add (scenAStrike "s3") 3, .add (scenAStrike "s4") 4,
   .add (scenAStrike "s5") 5, .add (scenAStrike "s6") 6,
   .add (scenAStrike "s7") 7, .add (scenAStrike "s8") 8,
   .add (scenAStrike "s9") 9, .add (scenAStrike "s10") 10,
   .add (scenAStrike "s11") 11, .add (scenAStrike "s12") 12,
   .add (scenAStrike "s13") 13, .add (scenAStrike "s14") 14,
   .add (scenAStrike "s15") 15]

/-- The keys of a JavaScript map, in insertion order. -/
def mapKeys {α : Type} (m : JsMap α) : List String := m.map (fun e => e.1)

/-- A registry state already tracking a bolt and a marker for id "a". -/
def dupState : LightningLayerState :=
  { lightningBoltEffects := [("a", mkBoltEffect scenACfg (scenAStrike "a") 1)],
    markerEffects := [("a", mkMarkerEffect scenACfg (scenAStrike "a") 1)],
    activeEffects := [⟨"a", 1⟩],
    terminatedBoltIds := [], terminatedMarkerIds := [] }

/-- The `scaledTime` computed by `LightningBoltEffect.update`:
`(now − startTime) × (speed || 1.0)`. -/
def boltScaled (e : LightningBoltEffect) (now : ℚ) : ℚ :=
  (now - e.startTime) * (if e.speed = 0 then 1 else e.speed)

/-- The `totalDuration` of `LightningBoltEffect.update` (seconds). -/
def boltTotal (e : LightningBoltEffect) : ℚ := e.duration / 1000

/-- The `phaseLength` of `LightningBoltEffect.update` (equal thirds). -/
def boltPhaseLen (e : LightningBoltEffect) : ℚ := boltTotal e / 3

/-- The alpha computed by the phase clock of `LightningBoltEffect.update`,
as a function of the total duration (seconds) and the scaled elapsed time
only. -/
def phaseAlpha (total scaled : ℚ) : ℚ :=
  if scaled > total then 0
  else if scaled < total / 3 then scaled / (total / 3)
  else if scaled < total / 3 * 2 then 1
  else max 0 (1 - (scaled - total / 3 * 2) / (total / 3))

/-!  ## Helper lemmas -/

attribute [local semireducible] Rat.mul Rat.inv Rat.add Rat.sub

/-- `update` on each affected branch, phrased with the named quantities of
the source (`scaledTime`, `totalDuration`, `phaseLength`). -/
theorem boltUpdate_eq (e : LightningBoltEffect) (now : ℚ)
    (h : e.isTerminated = false) :
    e.update now =
      (if boltScaled e now > boltTotal e then (false, e.terminateImmediately)
       else if boltScaled e now < boltPhaseLen e then
         (true, { e with animationPhase := 1,
                         opacity := boltScaled e now / boltPhaseLen e })
       else if boltScaled e now < boltPhaseLen e * 2 then
         (true, { e with animationPhase := 2, opacity := 1 })
       else
         (true, { e with animationPhase := 3,
                         opacity := max 0
                           (1 - (boltScaled e now - boltPhaseLen e * 2) /
                             boltPhaseLen e) })) := by
  simp only [LightningBoltEffect.update, h, Bool.false_eq_true, if_false,
    boltScaled, boltTotal, boltPhaseLen]

/-!  ## Claim theorems -/

/-- **C2.** For a strike effect with total duration `D` and constant
`speedFactor` `s`, `update(t)` computes `scaledElapsed = (t − startTime)·s`
and: past `D` it terminates, zeroes alpha and returns false; in the first
third `alpha = scaledElapsed/phaseLen`, in the second third `alpha = 1`,
in the last third `alpha = max(0, 1 − (scaledElapsed − 2·phaseLen)/phaseLen)`.
For `D = 1500 ms`, `s = 1.0`: `0 < alpha < 1` at 250 ms, `alpha = 1` at
900 ms, `0 < alpha < 1` at 1400 ms, not-alive at 1600 ms. -/
theorem boltUpdate_phase_formula :
    (∀ (e : LightningBoltEffect) (now : ℚ), e.isTerminated = false →
      0 < e.duration →
      (boltScaled e now > boltTotal e →
        (e.update now).1 = false ∧ (e.update now).2.opacity = 0 ∧
          (e.update now).2.isTerminated = true) ∧
      (boltScaled e now ≤ boltTotal e →
        (e.update now).1 = true ∧
        (boltScaled e now < boltPhaseLen e →
          (e.update now).2.opacity = boltScaled e now / boltPhaseLen e) ∧
        (boltPhaseLen e ≤ boltScaled e now →
          boltScaled e now < boltPhaseLen e * 2 →
            (e.update now).2.opacity = 1) ∧
        (boltPhaseLen e * 2 ≤ boltScaled e now →
          (e.update now).2.opacity =
            max 0 (1 - (boltScaled e now - boltPhaseLen e * 2) /
              boltPhaseLen e)))) ∧
    (0 < (scenarioDBolt.update (1 / 4)).2.opacity ∧
      (scenarioDBolt.update (1 / 4)).2.opacity < 1) ∧
    (scenarioDBolt.update (9 / 10)).2.opacity = 1 ∧
    (0 < (scenarioDBolt.update (14 / 10)).2.opacity ∧
      (scenarioDBolt.update (14 / 10)).2.opacity < 1) ∧
    (scenarioDBolt.update (16 / 10)).1 = false := by
  constructor
  · intro e now h hD
    have hp : 0 < boltPhaseLen e := by
      have h1000 : (0 : ℚ) < 1000 := by norm_num
      have h3 : (0 : ℚ) < 3 := by norm_num
      exact div_pos (div_pos hD h1000) h3
    rw [boltUpdate_eq e now h]
    constructor
    · intro hgt
      rw [if_pos hgt]
      exact ⟨rfl, rfl, rfl⟩
    · intro hle
      rw [if_neg (not_lt.mpr hle)]
      refine ⟨?_, ?_, ?_, ?_⟩
      · split_ifs <;> rfl
      · intro h1; rw [if_pos h1]
      · intro h1 h2; rw [if_neg (not_lt.mpr h1), if_pos h2]
      · intro h2
        rw [if_neg (not_lt.mpr (by linarith)), if_neg (not_lt.mpr h2)]
  · refine ⟨⟨?_, ?_⟩, ?_, ⟨?_, ?_⟩, ?_⟩ <;> decide

/-- Witness for C2: the Scenario D effect at 250 ms satisfies the
hypotheses and the theorem applies. -/
theorem boltUpdate_phase_formula_witness :
    scenarioDBolt.isTerminated = false ∧ (0 : ℚ) < scenarioDBolt.duration ∧
    boltScaled scenarioDBolt (1 / 4) ≤ boltTotal scenarioDBolt ∧
    (scenarioDBolt.update (1 / 4)).1 = true := by
  refine ⟨by decide, by decide, by decide, ?_⟩
  exact ((boltUpdate_phase_formula.1 scenarioDBolt (1 / 4) (by decide)
    (by decide)).2 (by decide)).1

/-- The opacity written by `update` is a function of the total duration and
the scaled elapsed time only. -/
theorem boltUpdate_opacity (e : LightningBoltEffect) (now : ℚ)
    (h : e.isTerminated = false) :
    (e.update now).2.opacity = phaseAlpha (boltTotal e) (boltScaled e now) := by
  rw [boltUpdate_eq e now h]
  unfold phaseAlpha boltPhaseLen
  split_ifs <;> rfl

/-- **C4.** Path generation is deterministic: the generator state created
from a seed is a pure value, so two generators created from the same seed
draw the same value sequence and two calls of the path generator with the
same arguments (and the same coordinate-mapping collaborator) return
identical point sequences. -/
theorem path_generation_deterministic :
    ∀ (sinFn sqrtFn : ℚ → ℚ) (globeEl : Option Globe) (lat lng : ℚ)
      (config : LightningBoltEffectConfig) (seed₁ seed₂ : ℚ), seed₁ = seed₂ →
      (∀ n, randStream sinFn (createRandomGenerator seed₁) n =
        randStream sinFn (createRandomGenerator seed₂) n) ∧
      createLightningStrikeGeometry lat lng globeEl config sinFn sqrtFn
          (createRandomGenerator seed₁) =
        createLightningStrikeGeometry lat lng globeEl config sinFn sqrtFn
          (createRandomGenerator seed₂) := by
  intro sinFn sqrtFn globeEl lat lng config seed₁ seed₂ h
  subst h
  exact ⟨fun _ => rfl, rfl⟩

/-- Witness for C4 at seed 42 and a concrete globe. -/
theorem path_generation_deterministic_witness :
    randStream zeroSin (createRandomGenerator 42) 0 =
      randStream zeroSin (createRandomGenerator 42) 0 ∧
    createLightningStrikeGeometry 0 0 (some testGlobe) smallBoltConfig zeroSin
        id (createRandomGenerator 42) =
      createLightningStrikeGeometry 0 0 (some testGlobe) smallBoltConfig zeroSin
        id (createRandomGenerator 42) :=
  ⟨(path_generation_deterministic zeroSin id (some testGlobe) 0 0
      smallBoltConfig 42 42 rfl).1 0,
   (path_generation_deterministic zeroSin id (some testGlobe) 0 0
      smallBoltConfig 42 42 rfl).2⟩

/-- **C6.** Changing the speed keeps `startTime`; the alpha observed when
the scaled elapsed time reaches the fraction `f` of the duration is the
same under any two positive speed factors, and the wall-clock time needed
to reach that fraction halves when the speed factor doubles. -/
theorem speed_invariance :
    (∀ (e : LightningBoltEffect) (s : ℚ),
      (e.updateSpeed s).startTime = e.startTime) ∧
    (∀ (t0 D f s₁ s₂ : ℚ), 0 < D → 0 ≤ f → f ≤ 1 → 0 < s₁ → 0 < s₂ →
      ((mkFreeBolt t0 s₁ D).update (t0 + f * (D / 1000) / s₁)).2.opacity =
        ((mkFreeBolt t0 s₂ D).update (t0 + f * (D / 1000) / s₂)).2.opacity ∧
      f * (D / 1000) / (2 * s₁) = (1 / 2) * (f * (D / 1000) / s₁)) := by
  constructor
  · intro e s
    unfold LightningBoltEffect.updateSpeed
    split_ifs <;> rfl
  · intro t0 D f s₁ s₂ hD hf hf1 hs₁ hs₂
    have key : ∀ s : ℚ, 0 < s →
        boltScaled (mkFreeBolt t0 s D) (t0 + f * (D / 1000) / s) =
          f * (D / 1000) := by
      intro s hs
      unfold boltScaled mkFreeBolt
      rw [if_neg (ne_of_gt hs)]
      field_simp
      ring
    constructor
    · rw [boltUpdate_opacity _ _ rfl, boltUpdate_opacity _ _ rfl,
        key s₁ hs₁, key s₂ hs₂]
      rfl
    · rw [mul_comm (2 : ℚ) s₁, ← div_div, one_div_mul_eq_div]

/-- Witness for C6: duration 1500 ms, fraction 1/2, speeds 1 and 2. -/
theorem speed_invariance_witness :
    ((mkFreeBolt 0 1 1500).update (0 + (1 / 2) * ((1500 : ℚ) / 1000) / 1)).2.opacity =
      ((mkFreeBolt 0 2 1500).update (0 + (1 / 2) * ((1500 : ℚ) / 1000) / 2)).2.opacity ∧
    (1 / 2 : ℚ) * (1500 / 1000) / (2 * 1) = (1 / 2) * ((1 / 2) * (1500 / 1000) / 1) :=
  speed_invariance.2 0 1500 (1 / 2) 1 2 (by norm_num) (by norm_num)
    (by norm_num) (by norm_num) (by norm_num)

/-- **C7** (code bug).  `speedFactor = this.config.speed || 1.0` replaces
only a zero speed: a negative configured speed passes through, the scaled
elapsed time stays nonpositive, and `update` never reports not-alive — the
effect with `speed = −1` never terminates, contradicting the required
clamping of `speedFactor ≤ 0` to a positive floor. -/
theorem negSpeed_bolt_never_not_alive :
    ∀ now : ℚ, 0 ≤ now →
      (negSpeedBolt.update now).1 = true ∧
      (negSpeedBolt.update now).2.isTerminated = false := by
  intro now h
  rw [boltUpdate_eq _ _ rfl]
  have hscaled : boltScaled negSpeedBolt now = now * (-1) := by
    unfold boltScaled negSpeedBolt mkFreeBolt
    norm_num
  have h1 : ¬ boltScaled negSpeedBolt now > boltTotal negSpeedBolt := by
    rw [hscaled]
    unfold boltTotal negSpeedBolt mkFreeBolt
    norm_num
    linarith
  rw [if_neg h1]
  split_ifs <;> exact ⟨rfl, rfl⟩

/-- Witness for C7: even after a million seconds the negative-speed effect
still reports alive. -/
theorem negSpeed_bolt_never_not_alive_witness :
    (negSpeedBolt.update 1000000).1 = true :=
  (negSpeed_bolt_never_not_alive 1000000 (by norm_num)).1

/-- **C10** counterexample: at a `currentTime` before `createTime` (age
−750 ms, fade-in 1500 ms, configured opacity 0.8) `update` writes the
negative opacity −2/5, outside `[0, config.opacity]`. -/
theorem marker_opacity_cex : (fadeMarker.update (-750)).2.opacity < 0 := by
  decide

/-- **C10** amended: for every marker and every `currentTime ≥ createTime`
(with the configured opacity nonnegative), `update` writes an opacity in
`[0, config.opacity]`, and past `maxAge` it writes exactly 0 and returns
false. -/
theorem marker_opacity_amended :
    ∀ (m : PointMarkerEffect) (t : ℚ), 0 ≤ m.config.opacity →
      m.createTime ≤ t →
      (0 ≤ (m.update t).2.opacity ∧
        (m.update t).2.opacity ≤ m.config.opacity) ∧
      (t - m.createTime > m.config.maxAge →
        (m.update t).1 = false ∧ (m.update t).2.opacity = 0) := by
  intro m t hop ht
  simp only [PointMarkerEffect.update]
  split_ifs with h1 h2 h3
  · exact ⟨⟨le_refl 0, hop⟩, fun _ => ⟨rfl, rfl⟩⟩
  · have hage : 0 ≤ t - m.createTime := by linarith
    have hfade : 0 < m.config.fadeInDuration := lt_of_le_of_lt hage h2
    have hratio : 0 ≤ (t - m.createTime) / m.config.fadeInDuration :=
      div_nonneg hage (le_of_lt hfade)
    exact ⟨⟨le_min hop (mul_nonneg hratio hop), min_le_left _ _⟩,
      fun hgt => absurd hgt h1⟩
  · exact ⟨⟨hop, le_refl _⟩, fun hgt => absurd hgt h1⟩
  · exact ⟨⟨le_max_left 0 _, max_le hop (min_le_left _ _)⟩,
      fun hgt => absurd hgt h1⟩

/-- Witness for C10 amended: the fade marker at 500 ms. -/
theorem marker_opacity_amended_witness :
    0 ≤ (fadeMarker.update 500).2.opacity ∧
      (fadeMarker.update 500).2.opacity ≤ fadeMarker.config.opacity :=
  (marker_opacity_amended fadeMarker 500 (by decide) (by decide)).1

/-- One interior iteration appends exactly one point. -/
theorem interiorStep_length (cp sp sw ud : Vec3) (js ja : ℚ) (seg : ℕ)
    (sinFn : ℚ → ℚ) (acc : List Vec3 × ℚ × ℚ × ℚ) (i : ℕ) :
    (interiorStep cp sp sw ud js ja seg sinFn acc i).1.length =
      acc.1.length + 1 := by
  simp [interiorStep]

/-- One interior iteration keeps the accumulated points as a prefix. -/
theorem interiorStep_extends (cp sp sw ud : Vec3) (js ja : ℚ) (seg : ℕ)
    (sinFn : ℚ → ℚ) (acc : List Vec3 × ℚ × ℚ × ℚ) (i : ℕ) :
    acc.1 <+: (interiorStep cp sp sw ud js ja seg sinFn acc i).1 := by
  simp only [interiorStep]
  exact List.prefix_append acc.1 _

/-- Each interior iteration appends exactly one point. -/
theorem foldl_interiorStep_length (cp sp sw ud : Vec3) (js ja : ℚ) (seg : ℕ)
    (sinFn : ℚ → ℚ) :
    ∀ (l : List ℕ) (acc : List Vec3 × ℚ × ℚ × ℚ),
      ((l.foldl (interiorStep cp sp sw ud js ja seg sinFn) acc).1).length =
        acc.1.length + l.length := by
  intro l
  induction l with
  | nil => intro acc; simp
  | cons i rest ih =>
    intro acc
    rw [List.foldl_cons, ih, interiorStep_length]
    simp only [List.length_cons]
    omega

/-- The interior loop only appends, so the starting point list stays a
prefix. -/
theorem foldl_interiorStep_extends (cp sp sw ud : Vec3) (js ja : ℚ) (seg : ℕ)
    (sinFn : ℚ → ℚ) :
    ∀ (l : List ℕ) (acc : List Vec3 × ℚ × ℚ × ℚ),
      acc.1 <+: (l.foldl (interiorStep cp sp sw ud js ja seg sinFn) acc).1 := by
  intro l
  induction l with
  | nil => intro acc; exact List.prefix_refl _
  | cons i rest ih =>
    intro acc
    rw [List.foldl_cons]
    exact List.IsPrefix.trans
      (interiorStep_extends cp sp sw ud js ja seg sinFn acc i) (ih _)

/-- **C3** counterexample: for the LightningBolt generator the last
generated point does not equal the surface anchor — its `y` is forced to
−1.8 — so the claim "last point equals the terminus exactly" fails. -/
theorem bolt_path_last_point_cex :
    (createLightningStrikeGeometry 0 0 (some testGlobe) smallBoltConfig zeroSin
        id 0).1.getLast? ≠ some (testGlobe.getCoords 0 0 0) := by
  decide

/-- **C3** amended: for every globe, origin/terminus pair and `N ≥ 1`, both
generators produce exactly `N + 1` ordered points whose first point is the
cloud anchor exactly; the ZigZag generator ends exactly at the surface
anchor, while the LightningBolt generator ends at the surface anchor's `x`
and `z` with `y` forced to the fixed ground level −1.8. -/
theorem path_endpoints_amended :
    ∀ (g : Globe) (lat lng : ℚ) (config : LightningBoltEffectConfig)
      (sinFn sqrtFn : ℚ → ℚ) (rs : ℚ), 1 ≤ config.lineSegments →
      ((createLightningStrikeGeometry lat lng (some g) config sinFn sqrtFn
          rs).1.length = config.lineSegments + 1 ∧
        (createLightningStrikeGeometry lat lng (some g) config sinFn sqrtFn
          rs).1.head? = some (g.getCoords lat lng config.startAltitude) ∧
        (createLightningStrikeGeometry lat lng (some g) config sinFn sqrtFn
          rs).1.getLast? = some ⟨(g.getCoords lat lng 0).x, -(9 / 5),
            (g.getCoords lat lng 0).z⟩) ∧
      ((createZigZagGeometry lat lng (some g) config sinFn sqrtFn
          rs).1.length = config.lineSegments + 1 ∧
        (createZigZagGeometry lat lng (some g) config sinFn sqrtFn
          rs).1.head? = some (g.getCoords lat lng config.startAltitude) ∧
        (createZigZagGeometry lat lng (some g) config sinFn sqrtFn
          rs).1.getLast? = some (g.getCoords lat lng 0)) := by
  intro g lat lng config sinFn sqrtFn rs hseg
  simp only [createLightningStrikeGeometry, createZigZagGeometry]
  refine ⟨⟨?_, ?_, ?_⟩, ?_, ?_, ?_⟩
  · rw [List.length_append, foldl_interiorStep_length]
    simp [List.length_range']
    omega
  · obtain ⟨t, ht⟩ := foldl_interiorStep_extends
      (g.getCoords lat lng config.startAltitude) (g.getCoords lat lng 0) _ _
      _ config.jitterAmount config.lineSegments sinFn
      (List.range' 1 (config.lineSegments - 1))
      ([⟨(g.getCoords lat lng config.startAltitude).x,
         (g.getCoords lat lng config.startAltitude).y,
         (g.getCoords lat lng config.startAltitude).z⟩], 0, 0, rs)
    rw [← ht]
    rfl
  · exact List.getLast?_concat _
  · rw [List.length_append, foldl_interiorStep_length]
    simp [List.length_range']
    omega
  · obtain ⟨t, ht⟩ := foldl_interiorStep_extends
      (g.getCoords lat lng config.startAltitude) (g.getCoords lat lng 0) _ _
      _ config.jitterAmount config.lineSegments sinFn
      (List.range' 1 (config.lineSegments - 1))
      ([⟨(g.getCoords lat lng config.startAltitude).x,
         (g.getCoords lat lng config.startAltitude).y,
         (g.getCoords lat lng config.startAltitude).z⟩], 0, 0, rs)
    rw [← ht]
    rfl
  · exact List.getLast?_concat _

/-- Witness for C3 amended at a concrete globe and `N = 2`. -/
theorem path_endpoints_amended_witness :
    1 ≤ smallBoltConfig.lineSegments ∧
    (createLightningStrikeGeometry 0 0 (some testGlobe) smallBoltConfig zeroSin
        id 0).1.length = smallBoltConfig.lineSegments + 1 ∧
    (createZigZagGeometry 0 0 (some testGlobe) smallBoltConfig zeroSin id
        0).1.getLast? = some (testGlobe.getCoords 0 0 0) :=
  ⟨by decide,
   (path_endpoints_amended testGlobe 0 0 smallBoltConfig zeroSin id 0
      (by decide)).1.1,
   (path_endpoints_amended testGlobe 0 0 smallBoltConfig zeroSin id 0
      (by decide)).2.2.2⟩

/-- The branch loop never grows past `maxBranches`. -/
theorem branchesLoop_length_le (g : Globe) (config : LightningBoltEffectConfig)
    (positions : List Vec3) (sinFn sqrtFn : ℚ → ℚ) :
    ∀ (l : List ℕ) (acc : List (ℕ × List Vec3) × ℚ),
      acc.1.length ≤ config.maxBranches →
      (branchesLoop g config positions sinFn sqrtFn l acc).1.length ≤
        config.maxBranches := by
  intro l
  induction l with
  | nil => intro acc h; exact h
  | cons i rest ih =>
    intro acc h
    simp only [branchesLoop]
    by_cases hlt : acc.1.length < config.maxBranches
    · rw [if_pos hlt]
      by_cases hr : (nextRandom sinFn acc.2).1 < config.branchChance
      · rw [if_pos hr]
        refine ih _ ?_
        simp only [List.length_append, List.length_cons, List.length_nil]
        omega
      · rw [if_neg hr]
        exact ih _ h
    · rw [if_neg hlt]
      exact h

/-- Every branch the loop emits is rooted at an index of the remaining
index list (or was already in the accumulator). -/
theorem branchesLoop_mem (g : Globe) (config : LightningBoltEffectConfig)
    (positions : List Vec3) (sinFn sqrtFn : ℚ → ℚ) :
    ∀ (l : List ℕ) (acc : List (ℕ × List Vec3) × ℚ) (b : ℕ × List Vec3),
      b ∈ (branchesLoop g config positions sinFn sqrtFn l acc).1 →
      b ∈ acc.1 ∨ b.1 ∈ l := by
  intro l
  induction l with
  | nil => intro acc b h; exact Or.inl h
  | cons i rest ih =>
    intro acc b h
    simp only [branchesLoop] at h
    by_cases hlt : acc.1.length < config.maxBranches
    · rw [if_pos hlt] at h
      by_cases hr : (nextRandom sinFn acc.2).1 < config.branchChance
      · rw [if_pos hr] at h
        rcases ih _ b h with hmem | hl
        · rcases List.mem_append.mp hmem with h1 | h2
          · exact Or.inl h1
          · right
            have hb : b = (branchBody g config positions sinFn sqrtFn i
                (nextRandom sinFn acc.2).2).1 := List.mem_singleton.mp h2
            have hroot : (branchBody g config positions sinFn sqrtFn i
                (nextRandom sinFn acc.2).2).1.1 = i := rfl
            rw [hb, hroot]
            exact List.mem_cons_self i rest
        · exact Or.inr (List.mem_cons_of_mem i hl)
      · rw [if_neg hr] at h
        rcases ih _ b h with h1 | h2
        · exact Or.inl h1
        · exact Or.inr (List.mem_cons_of_mem i h2)
    · rw [if_neg hlt] at h
      exact Or.inl h

/-- **C5** counterexample: with 8 segments, certain branching and the
all-zero draw sequence, a branch is rooted at vertex 1, inside the first
`⌈0.15·8⌉ = 2` vertices — the code skips only `⌊0.15·N⌋` vertices. -/
theorem branch_skip_ceil_cex :
    ∃ b ∈ (createBranches (some testGlobe) branchCfg mainPath9 zeroSin id
      0).1, b.1 < (⌈(branchCfg.lineSegments : ℚ) * (15 / 100)⌉).toNat := by
  decide

/-- **C5** amended: the branch generator emits at most `maxBranches`
branches; no branch roots at a vertex within the first `⌊0.15N⌋` vertices,
and none within the last `⌈0.15N⌉` vertices of the `N+1`-vertex path. -/
theorem branch_bounds_amended :
    ∀ (globeEl : Option Globe) (config : LightningBoltEffectConfig)
      (positions : List Vec3) (sinFn sqrtFn : ℚ → ℚ) (rs : ℚ),
      (createBranches globeEl config positions sinFn sqrtFn rs).1.length ≤
        config.maxBranches ∧
      ∀ b ∈ (createBranches globeEl config positions sinFn sqrtFn rs).1,
        (⌊(config.lineSegments : ℚ) * (15 / 100)⌋).toNat ≤ b.1 ∧
        b.1 + (⌈(config.lineSegments : ℚ) * (15 / 100)⌉).toNat <
          config.lineSegments + 1 := by
  intro globeEl config positions sinFn sqrtFn rs
  cases globeEl with
  | none =>
    constructor
    · simp [createBranches]
    · intro b hb
      simp [createBranches] at hb
  | some g =>
    constructor
    · exact branchesLoop_length_le g config positions sinFn sqrtFn _ _
        (by simp)
    · intro b hb
      simp only [createBranches] at hb
      rcases branchesLoop_mem g config positions sinFn sqrtFn _ _ b hb with
        h0 | hidx
      · exact absurd h0 (List.not_mem_nil b)
      · rw [List.mem_range'_1] at hidx
        have hq : (0 : ℚ) ≤ (config.lineSegments : ℚ) * (15 / 100) := by
          positivity
        have hfl : 0 ≤ ⌊(config.lineSegments : ℚ) * (15 / 100)⌋ :=
          Int.floor_nonneg.mpr hq
        have hcf : ⌈(config.lineSegments : ℚ) * (15 / 100)⌉ ≤
            ⌊(config.lineSegments : ℚ) * (15 / 100)⌋ + 1 :=
          Int.ceil_le_floor_add_one _
        omega

/-- Witness for C5 amended: the concrete branch run satisfies the count
bound, and its first emitted branch respects the floor skip bound. -/
theorem branch_bounds_amended_witness :
    (createBranches (some testGlobe) branchCfg mainPath9 zeroSin id
      0).1.length ≤ branchCfg.maxBranches ∧
    (⌊(branchCfg.lineSegments : ℚ) * (15 / 100)⌋).toNat ≤
      ((createBranches (some testGlobe) branchCfg mainPath9 zeroSin id
        0).1.headD (0, [])).1 :=
  ⟨(branch_bounds_amended (some testGlobe) branchCfg mainPath9 zeroSin id
      0).1,
   ((branch_bounds_amended (some testGlobe) branchCfg mainPath9 zeroSin id
      0).2 _ (by decide)).1⟩

/-- `ensureMaxActiveEffects` never touches the marker map. -/
theorem ensureMax_markerEffects (cfg : LightningLayerConfig)
    (st : LightningLayerState) :
    (ensureMaxActiveEffects cfg st).markerEffects = st.markerEffects := by
  simp only [ensureMaxActiveEffects]
  split <;> rfl

/-- `ensureMaxActiveEffects` never touches the marker termination log. -/
theorem ensureMax_terminatedMarkerIds (cfg : LightningLayerConfig)
    (st : LightningLayerState) :
    (ensureMaxActiveEffects cfg st).terminatedMarkerIds =
      st.terminatedMarkerIds := by
  simp only [ensureMaxActiveEffects]
  split <;> rfl

/-- After `ensureMaxActiveEffects` the recency list is within the cap. -/
theorem ensureMax_active_le (cfg : LightningLayerConfig)
    (st : LightningLayerState) :
    (ensureMaxActiveEffects cfg st).activeEffects.length ≤
      cfg.maxActiveAnimations := by
  simp only [ensureMaxActiveEffects]
  split
  next h =>
    simp [List.length_take]
  next h =>
    exact le_of_not_lt h

/-- `createLightningBoltEffect` never touches the marker map. -/
theorem createBolt_markerEffects (cfg : LightningLayerConfig)
    (strike : StrikeEvent) (now : ℚ) (st : LightningLayerState) :
    (createLightningBoltEffect cfg strike now st).markerEffects =
      st.markerEffects := by
  simp only [createLightningBoltEffect]
  split
  · rfl
  · rw [ensureMax_markerEffects]
    split <;> rfl

/-- `createLightningBoltEffect` keeps the recency list within the cap. -/
theorem createBolt_active_le (cfg : LightningLayerConfig)
    (strike : StrikeEvent) (now : ℚ) (st : LightningLayerState)
    (h : st.activeEffects.length ≤ cfg.maxActiveAnimations) :
    (createLightningBoltEffect cfg strike now st).activeEffects.length ≤
      cfg.maxActiveAnimations := by
  simp only [createLightningBoltEffect]
  split
  · exact h
  · exact ensureMax_active_le _ _

/-- `createMarkerEffect` never touches the recency list. -/
theorem createMarker_activeEffects (cfg : LightningLayerConfig)
    (strike : StrikeEvent) (now : ℚ) (st : LightningLayerState) :
    (createMarkerEffect cfg strike now st).activeEffects =
      st.activeEffects := by
  simp only [createMarkerEffect]
  split
  · rfl
  · split <;> rfl

/-- `mapSet` adds at most one entry. -/
theorem mapSet_length_le {α : Type} (m : JsMap α) (k : String) (v : α) :
    (mapSet m k v).length ≤ m.length + 1 := by
  simp only [mapSet]
  split
  · simp
  · simp

/-- `createMarkerEffect` adds at most one marker. -/
theorem createMarker_markers_le (cfg : LightningLayerConfig)
    (strike : StrikeEvent) (now : ℚ) (st : LightningLayerState) :
    (createMarkerEffect cfg strike now st).markerEffects.length ≤
      st.markerEffects.length + 1 := by
  simp only [createMarkerEffect]
  split
  · exact Nat.le_succ _
  · split
    · refine le_trans (mapSet_length_le _ _ _) ?_
      have := List.length_filter_le
        (fun e => decide (e.1 ≠ strike.id)) st.markerEffects
      simp only [mapDelete]
      omega
    · exact mapSet_length_le _ _ _

/-- One marker-cap removal step deletes exactly the entry's id from the
marker map. -/
theorem removeDisplayed_markerEffects (st : LightningLayerState)
    (entry : String × PointMarkerEffect) :
    (removeDisplayedStrike st entry).markerEffects =
      mapDelete st.markerEffects entry.1 := by
  simp only [removeDisplayedStrike]
  split <;> rfl

/-- One marker-cap removal step can only shrink the recency list. -/
theorem removeDisplayed_active_le (st : LightningLayerState)
    (entry : String × PointMarkerEffect) :
    (removeDisplayedStrike st entry).activeEffects.length ≤
      st.activeEffects.length := by
  simp only [removeDisplayedStrike]
  split
  · exact List.length_filter_le _ _
  · exact le_refl _

/-- Folding the removal step deletes exactly the listed ids from the
marker map. -/
theorem foldl_removeDisplayed_markers :
    ∀ (l : List (String × PointMarkerEffect)) (st : LightningLayerState),
      (l.foldl removeDisplayedStrike st).markerEffects =
        st.markerEffects.filter
          (fun e => decide (e.1 ∉ l.map (fun x => x.1))) := by
  intro l
  induction l with
  | nil => intro st; simp
  | cons a rest ih =>
    intro st
    rw [List.foldl_cons, ih, removeDisplayed_markerEffects]
    simp only [mapDelete]
    rw [List.filter_filter]
    apply List.filter_congr
    intro x _
    by_cases h1 : x.1 = a.1 <;>
      by_cases h2 : x.1 ∈ rest.map (fun x => x.1) <;>
        simp [h1, h2]

/-- Folding the removal step can only shrink the recency list. -/
theorem foldl_removeDisplayed_active_le :
    ∀ (l : List (String × PointMarkerEffect)) (st : LightningLayerState),
      (l.foldl removeDisplayedStrike st).activeEffects.length ≤
        st.activeEffects.length := by
  intro l
  induction l with
  | nil => intro st; exact le_refl _
  | cons a rest ih =>
    intro st
    rw [List.foldl_cons]
    exact le_trans (ih _) (removeDisplayed_active_le _ _)

/-- After `enforceMaxDisplayedStrikes` the marker map is within the cap. -/
theorem enforce_markers_le (cfg : LightningLayerConfig)
    (st : LightningLayerState) :
    (enforceMaxDisplayedStrikes cfg st).markerEffects.length ≤
      cfg.maxDisplayedStrikes := by
  simp only [enforceMaxDisplayedStrikes]
  split
  next h => exact h
  next h =>
    push_neg at h
    rw [foldl_removeDisplayed_markers]
    set sorted := List.insertionSort
      (fun a b => a.2.createTime ≤ b.2.createTime) st.markerEffects
      with hsorted
    set rc := sorted.length - cfg.maxDisplayedStrikes with hrc
    set ids := (sorted.take rc).map (fun x => x.1) with hids
    have hperm : List.Perm sorted st.markerEffects :=
      List.perm_insertionSort _ _
    have hlen : sorted.length = st.markerEffects.length := hperm.length_eq
    have hsub : List.Subperm (sorted.take rc) st.markerEffects :=
      (List.take_sublist rc sorted).subperm.trans hperm.subperm
    have htake : (sorted.take rc).length = rc := by
      rw [List.length_take]
      omega
    have hall : ∀ x ∈ sorted.take rc,
        (fun e : String × PointMarkerEffect => decide (e.1 ∈ ids)) x = true := by
      intro x hx
      simp only [decide_eq_true_eq, hids]
      exact List.mem_map_of_mem (fun x => x.1) hx
    have hcnt : rc ≤ st.markerEffects.countP
        (fun e => decide (e.1 ∈ ids)) := by
      have h1 := hsub.countP_le (fun e => decide (e.1 ∈ ids))
      rw [List.countP_eq_length.mpr hall, htake] at h1
      exact h1
    have hsplit := List.length_eq_countP_add_countP
      (fun e : String × PointMarkerEffect => decide (e.1 ∈ ids))
      st.markerEffects
    have hfil : (st.markerEffects.filter
        (fun e => decide (e.1 ∉ ids))).length =
        st.markerEffects.countP (fun e => decide (e.1 ∉ ids)) :=
      (List.countP_eq_length_filter _ _).symm
    have hnot : st.markerEffects.countP (fun e => decide (e.1 ∉ ids)) =
        st.markerEffects.countP
          (fun a : String × PointMarkerEffect =>
            decide ¬(decide (a.1 ∈ ids) = true)) := by
      apply List.countP_congr
      intro x _
      simp
    rw [hfil, hnot]
    omega

/-- `enforceMaxDisplayedStrikes` can only shrink the recency list. -/
theorem enforce_active_le (cfg : LightningLayerConfig)
    (st : LightningLayerState) :
    (enforceMaxDisplayedStrikes cfg st).activeEffects.length ≤
      st.activeEffects.length := by
  simp only [enforceMaxDisplayedStrikes]
  split
  · exact le_refl _
  · exact foldl_removeDisplayed_active_le _ _

/-- A tick can only shrink the recency list. -/
theorem updateLayer_active_le (cfg : LightningLayerConfig) (now : ℚ)
    (st : LightningLayerState) :
    (updateLayer cfg now st).activeEffects.length ≤
      st.activeEffects.length := by
  simp only [updateLayer]
  split
  · exact le_refl _
  · exact List.length_filter_le _ _

/-- A tick can only shrink the marker map. -/
theorem updateLayer_markers_le (cfg : LightningLayerConfig) (now : ℚ)
    (st : LightningLayerState) :
    (updateLayer cfg now st).markerEffects.length ≤
      st.markerEffects.length := by
  simp only [updateLayer]
  split
  · exact le_refl _
  · rw [List.length_map]
    exact le_trans (List.length_filter_le _ _)
      (le_of_eq (List.length_map _ _))

/-- `addData` keeps the recency list within the active cap. -/
theorem addData_active_le (cfg : LightningLayerConfig) (strike : StrikeEvent)
    (now : ℚ) (st : LightningLayerState)
    (h : st.activeEffects.length ≤ cfg.maxActiveAnimations) :
    (addData cfg strike now st).activeEffects.length ≤
      cfg.maxActiveAnimations := by
  simp only [addData]
  refine le_trans (enforce_active_le _ _) ?_
  rw [createMarker_activeEffects]
  split
  · exact createBolt_active_le _ _ _ _ h
  · exact h

/-- `addData` leaves the marker map within the display cap. -/
theorem addData_markers_le (cfg : LightningLayerConfig) (strike : StrikeEvent)
    (now : ℚ) (st : LightningLayerState) :
    (addData cfg strike now st).markerEffects.length ≤
      cfg.maxDisplayedStrikes :=
  enforce_markers_le _ _

/-- Both caps are preserved along any operation sequence. -/
theorem foldl_applyOp_caps (cfg : LightningLayerConfig) :
    ∀ (ops : List LayerOp) (st : LightningLayerState),
      st.activeEffects.length ≤ cfg.maxActiveAnimations →
      st.markerEffects.length ≤ cfg.maxDisplayedStrikes →
      (ops.foldl (applyOp cfg) st).activeEffects.length ≤
          cfg.maxActiveAnimations ∧
        (ops.foldl (applyOp cfg) st).markerEffects.length ≤
          cfg.maxDisplayedStrikes := by
  intro ops
  induction ops with
  | nil => intro st h1 h2; exact ⟨h1, h2⟩
  | cons op rest ih =>
    intro st h1 h2
    rw [List.foldl_cons]
    cases op with
    | add strike now =>
      exact ih _ (addData_active_le cfg strike now st h1)
        (addData_markers_le cfg strike now st)
    | tick now =>
      exact ih _ (le_trans (updateLayer_active_le cfg now st) h1)
        (le_trans (updateLayer_markers_le cfg now st) h2)

/-- **C1.** After every registry operation — any sequence of admissions and
per-tick updates starting from the empty registry — the number of tracked
active strike-effect records is at most `maxActiveAnimations` and the
number of displayed markers is at most `maxDisplayedStrikes`. -/
theorem registry_caps_invariant :
    ∀ (cfg : LightningLayerConfig) (ops : List LayerOp),
      (runOps cfg ops).activeEffects.length ≤ cfg.maxActiveAnimations ∧
      (runOps cfg ops).markerEffects.length ≤ cfg.maxDisplayedStrikes := by
  intro cfg ops
  exact foldl_applyOp_caps cfg ops emptyLayerState
    (by simp [emptyLayerState]) (by simp [emptyLayerState])

set_option maxRecDepth 100000

/-- **C9.** Enforcing the active cap terminates only the strike effects
beyond the newest `maxActiveAnimations` by admission timestamp and leaves
the marker map untouched: admitting 15 strikes with strictly increasing
timestamps under `maxActiveAnimations = 10` leaves the bolt effects of the
10 most recent strikes animated, forcibly terminates the 5 oldest, and all
15 markers persist. -/
theorem active_cap_scenario :
    (∀ (cfg : LightningLayerConfig) (st : LightningLayerState),
      (ensureMaxActiveEffects cfg st).markerEffects = st.markerEffects ∧
      (ensureMaxActiveEffects cfg st).terminatedMarkerIds =
        st.terminatedMarkerIds) ∧
    (runOps scenACfg scenAOps).lightningBoltEffects.map (fun e => e.1) =
      ["s6", "s7", "s8", "s9", "s10", "s11", "s12", "s13", "s14", "s15"] ∧
    (runOps scenACfg scenAOps).terminatedBoltIds =
      ["s1", "s2", "s3", "s4", "s5"] ∧
    (runOps scenACfg scenAOps).markerEffects.map (fun e => e.1) =
      ["s1", "s2", "s3", "s4", "s5", "s6", "s7", "s8", "s9", "s10", "s11",
        "s12", "s13", "s14", "s15"] ∧
    (runOps scenACfg scenAOps).terminatedMarkerIds = [] := by
  refine ⟨fun cfg st => ⟨ensureMax_markerEffects cfg st,
    ensureMax_terminatedMarkerIds cfg st⟩, ?_, ?_, ?_, ?_⟩ <;> decide

/-- Deleting a key keeps the key list a sublist. -/
theorem mapDelete_keys_sublist {α : Type} (m : JsMap α) (k : String) :
    List.Sublist (mapKeys (mapDelete m k)) (mapKeys m) :=
  (List.filter_sublist m).map _

/-- Deleting a key preserves distinctness of keys. -/
theorem mapDelete_keys_nodup {α : Type} (m : JsMap α) (k : String)
    (h : (mapKeys m).Nodup) : (mapKeys (mapDelete m k)).Nodup :=
  h.sublist (mapDelete_keys_sublist m k)

/-- Overwriting an existing key leaves the key list unchanged. -/
theorem mapKeys_mapSet_of_has {α : Type} (m : JsMap α) (k : String) (v : α)
    (h : mapHas m k = true) : mapKeys (mapSet m k v) = mapKeys m := by
  simp only [mapSet, h, if_true, mapKeys, List.map_map]
  apply List.map_congr_left
  intro e _
  by_cases he : e.1 = k
  · simp [he]
  · simp [he]

/-- A key the map does not have is not among its keys. -/
theorem not_mem_mapKeys_of_mapHas_false {α : Type} (m : JsMap α) (k : String)
    (h : mapHas m k = false) : k ∉ mapKeys m := by
  intro hk
  rcases List.mem_map.mp hk with ⟨e, hem, hek⟩
  have : mapHas m k = true := by
    simp only [mapHas, List.any_eq_true]
    exact ⟨e, hem, by simp [hek]⟩
  rw [h] at this
  exact Bool.false_ne_true this

/-- `Map.set` preserves distinctness of keys. -/
theorem mapSet_keys_nodup {α : Type} (m : JsMap α) (k : String) (v : α)
    (h : (mapKeys m).Nodup) : (mapKeys (mapSet m k v)).Nodup := by
  by_cases hh : mapHas m k = true
  · rw [mapKeys_mapSet_of_has m k v hh]
    exact h
  · have hh' : mapHas m k = false := Bool.not_eq_true _ ▸ Bool.eq_false_iff.mpr hh
    simp only [mapSet, hh', Bool.false_eq_true, if_false]
    have hkeys : mapKeys (m ++ [(k, v)]) = mapKeys m ++ [k] := by
      simp [mapKeys]
    rw [hkeys]
    refine ((List.perm_append_singleton k (mapKeys m)).nodup_iff).mpr ?_
    exact List.nodup_cons.mpr ⟨not_mem_mapKeys_of_mapHas_false m k hh', h⟩

/-- After deleting a key the map no longer has it. -/
theorem mapHas_mapDelete_self {α : Type} (m : JsMap α) (k : String) :
    mapHas (mapDelete m k) k = false := by
  rw [Bool.eq_false_iff]
  intro hany
  simp only [mapHas, List.any_eq_true, mapDelete, List.mem_filter,
    decide_eq_true_eq] at hany
  rcases hany with ⟨e, ⟨_, hne⟩, hek⟩
  exact hne hek

/-- Looking up a key appended at the end of a map that lacks it. -/
theorem mapGet?_append_self {α : Type} (m : JsMap α) (k : String) (v : α)
    (h : mapHas m k = false) : mapGet? (m ++ [(k, v)]) k = some v := by
  induction m with
  | nil => simp [mapGet?]
  | cons a m ih =>
    have hne : ¬(a.1 = k) := by
      intro he
      have : mapHas (a :: m) k = true := by
        simp only [mapHas, List.any_eq_true]
        exact ⟨a, List.mem_cons_self a m, by simp [he]⟩
      rw [h] at this
      exact Bool.false_ne_true this
    have hm : mapHas m k = false := by
      rw [Bool.eq_false_iff]
      intro hany
      have : mapHas (a :: m) k = true := by
        simp only [mapHas, List.any_cons, Bool.or_eq_true]
        exact Or.inr hany
      rw [h] at this
      exact Bool.false_ne_true this
    rw [List.cons_append]
    simp only [mapGet?]
    rw [List.find?_cons_of_neg]
    · exact ih hm
    · simp [hne]

/-- Setting a key a map lacks makes lookup return the new value. -/
theorem mapGet?_mapSet_of_not_has {α : Type} (m : JsMap α) (k : String)
    (v : α) (h : mapHas m k = false) : mapGet? (mapSet m k v) k = some v := by
  simp only [mapSet, h, Bool.false_eq_true, if_false]
  exact mapGet?_append_self m k v h

/-- Deleting a key the map has strictly shrinks it. -/
theorem mapDelete_length_lt {α : Type} (m : JsMap α) (k : String)
    (h : mapHas m k = true) : (mapDelete m k).length < m.length := by
  simp only [mapHas, List.any_eq_true, decide_eq_true_eq] at h
  rcases h with ⟨e, hem, hek⟩
  apply List.length_filter_lt_length_iff_exists.mpr
  exact ⟨e, hem, by simp [hek]⟩

/-- The eviction fold preserves distinctness of bolt keys. -/
theorem foldl_evictBolt_keys_nodup :
    ∀ (ids : List String) (acc : JsMap LightningBoltEffect × List String),
      (mapKeys acc.1).Nodup → (mapKeys (ids.foldl evictBoltStep acc).1).Nodup := by
  intro ids
  induction ids with
  | nil => intro acc h; exact h
  | cons id rest ih =>
    intro acc h
    rw [List.foldl_cons]
    apply ih
    simp only [evictBoltStep]
    split
    · exact mapDelete_keys_nodup _ _ h
    · exact h

/-- `ensureMaxActiveEffects` preserves distinctness of bolt keys. -/
theorem ensureMax_bolts_nodup (cfg : LightningLayerConfig)
    (st : LightningLayerState)
    (h : (mapKeys st.lightningBoltEffects).Nodup) :
    (mapKeys (ensureMaxActiveEffects cfg st).lightningBoltEffects).Nodup := by
  simp only [ensureMaxActiveEffects]
  split
  · exact foldl_evictBolt_keys_nodup _ _ h
  · exact h

/-- `createLightningBoltEffect` preserves distinctness of bolt keys. -/
theorem createBolt_bolts_nodup (cfg : LightningLayerConfig)
    (strike : StrikeEvent) (now : ℚ) (st : LightningLayerState)
    (h : (mapKeys st.lightningBoltEffects).Nodup) :
    (mapKeys (createLightningBoltEffect cfg strike now
      st).lightningBoltEffects).Nodup := by
  simp only [createLightningBoltEffect]
  split
  · exact h
  · apply ensureMax_bolts_nodup
    split
    · exact mapSet_keys_nodup _ _ _ (mapDelete_keys_nodup _ _ h)
    · exact mapSet_keys_nodup _ _ _ h

/-- `createMarkerEffect` leaves the bolt map unchanged. -/
theorem createMarker_lightningBoltEffects (cfg : LightningLayerConfig)
    (strike : StrikeEvent) (now : ℚ) (st : LightningLayerState) :
    (createMarkerEffect cfg strike now st).lightningBoltEffects =
      st.lightningBoltEffects := by
  simp only [createMarkerEffect]
  split
  · rfl
  · split <;> rfl

/-- `createMarkerEffect` leaves the bolt termination log unchanged. -/
theorem createMarker_terminatedBoltIds (cfg : LightningLayerConfig)
    (strike : StrikeEvent) (now : ℚ) (st : LightningLayerState) :
    (createMarkerEffect cfg strike now st).terminatedBoltIds =
      st.terminatedBoltIds := by
  simp only [createMarkerEffect]
  split
  · rfl
  · split <;> rfl

/-- `createMarkerEffect` preserves distinctness of marker keys. -/
theorem createMarker_markers_nodup (cfg : LightningLayerConfig)
    (strike : StrikeEvent) (now : ℚ) (st : LightningLayerState)
    (h : (mapKeys st.markerEffects).Nodup) :
    (mapKeys (createMarkerEffect cfg strike now st).markerEffects).Nodup := by
  simp only [createMarkerEffect]
  split
  · exact h
  · split
    · exact mapSet_keys_nodup _ _ _ (mapDelete_keys_nodup _ _ h)
    · exact mapSet_keys_nodup _ _ _ h

/-- One marker-cap removal step preserves distinctness of both key lists. -/
theorem removeDisplayed_nodup (st : LightningLayerState)
    (entry : String × PointMarkerEffect)
    (hb : (mapKeys st.lightningBoltEffects).Nodup)
    (hm : (mapKeys st.markerEffects).Nodup) :
    (mapKeys (removeDisplayedStrike st entry).lightningBoltEffects).Nodup ∧
      (mapKeys (removeDisplayedStrike st entry).markerEffects).Nodup := by
  simp only [removeDisplayedStrike]
  split
  · exact ⟨mapDelete_keys_nodup _ _ hb, mapDelete_keys_nodup _ _ hm⟩
  · exact ⟨hb, mapDelete_keys_nodup _ _ hm⟩

/-- The marker-cap removal fold preserves distinctness of both key lists. -/
theorem foldl_removeDisplayed_nodup :
    ∀ (l : List (String × PointMarkerEffect)) (st : LightningLayerState),
      (mapKeys st.lightningBoltEffects).Nodup →
      (mapKeys st.markerEffects).Nodup →
      (mapKeys (l.foldl removeDisplayedStrike
          st).lightningBoltEffects).Nodup ∧
        (mapKeys (l.foldl removeDisplayedStrike st).markerEffects).Nodup := by
  intro l
  induction l with
  | nil => intro st hb hm; exact ⟨hb, hm⟩
  | cons a rest ih =>
    intro st hb hm
    rw [List.foldl_cons]
    obtain ⟨hb1, hm1⟩ := removeDisplayed_nodup st a hb hm
    exact ih _ hb1 hm1

/-- `enforceMaxDisplayedStrikes` preserves distinctness of both key lists. -/
theorem enforce_nodup (cfg : LightningLayerConfig) (st : LightningLayerState)
    (hb : (mapKeys st.lightningBoltEffects).Nodup)
    (hm : (mapKeys st.markerEffects).Nodup) :
    (mapKeys (enforceMaxDisplayedStrikes cfg
        st).lightningBoltEffects).Nodup ∧
      (mapKeys (enforceMaxDisplayedStrikes cfg st).markerEffects).Nodup := by
  simp only [enforceMaxDisplayedStrikes]
  split
  · exact ⟨hb, hm⟩
  · exact foldl_removeDisplayed_nodup _ _ hb hm

/-- A tick leaves the bolt keys a sublist of what they were. -/
theorem updateLayer_bolts_keys_sublist (cfg : LightningLayerConfig)
    (now : ℚ) (st : LightningLayerState) :
    List.Sublist (mapKeys (updateLayer cfg now st).lightningBoltEffects)
      (mapKeys st.lightningBoltEffects) := by
  simp only [updateLayer]
  split
  · exact List.Sublist.refl _
  · simp only [mapKeys, List.map_map]
    have h1 : List.Sublist
        ((st.lightningBoltEffects.map
          (fun e => (e.1, e.2.update (now / 1000)))).filter (fun r => r.2.1))
        (st.lightningBoltEffects.map
          (fun e => (e.1, e.2.update (now / 1000)))) :=
      List.filter_sublist _
    have h2 := h1.map (fun r => r.1)
    rw [List.map_map] at h2
    exact h2

/-- A tick leaves the marker keys a sublist of what they were. -/
theorem updateLayer_markers_keys_sublist (cfg : LightningLayerConfig)
    (now : ℚ) (st : LightningLayerState) :
    List.Sublist (mapKeys (updateLayer cfg now st).markerEffects)
      (mapKeys st.markerEffects) := by
  simp only [updateLayer]
  split
  · exact List.Sublist.refl _
  · simp only [mapKeys, List.map_map]
    have h1 : List.Sublist
        ((st.markerEffects.map (fun e => (e.1, e.2.update now))).filter
          (fun r => r.2.1))
        (st.markerEffects.map (fun e => (e.1, e.2.update now))) :=
      List.filter_sublist _
    have h2 := h1.map (fun r => r.1)
    rw [List.map_map] at h2
    exact h2

/-- Any registry operation preserves distinctness of both key lists. -/
theorem applyOp_nodup (cfg : LightningLayerConfig)
    (st : LightningLayerState) (op : LayerOp)
    (hb : (mapKeys st.lightningBoltEffects).Nodup)
    (hm : (mapKeys st.markerEffects).Nodup) :
    (mapKeys (applyOp cfg st op).lightningBoltEffects).Nodup ∧
      (mapKeys (applyOp cfg st op).markerEffects).Nodup := by
  cases op with
  | add strike now =>
    simp only [applyOp, addData]
    apply enforce_nodup
    · rw [createMarker_lightningBoltEffects]
      split
      · exact createBolt_bolts_nodup _ _ _ _ hb
      · exact hb
    · apply createMarker_markers_nodup
      split
      · rw [createBolt_markerEffects]
        exact hm
      · exact hm
  | tick now =>
    exact ⟨hb.sublist (updateLayer_bolts_keys_sublist cfg now st),
      hm.sublist (updateLayer_markers_keys_sublist cfg now st)⟩

/-- When the recency list is within the cap, `ensureMaxActiveEffects` only
sorts it. -/
theorem ensureMax_of_le (cfg : LightningLayerConfig)
    (st : LightningLayerState)
    (h : st.activeEffects.length ≤ cfg.maxActiveAnimations) :
    ensureMaxActiveEffects cfg st =
      { st with activeEffects :=
          (List.insertionSort (fun a b => b.timestamp ≤ a.timestamp)
            st.activeEffects) } := by
  simp only [ensureMaxActiveEffects]
  rw [if_neg]
  have hlen := (List.perm_insertionSort
    (fun a b => b.timestamp ≤ a.timestamp) st.activeEffects).length_eq
  omega

/-- When the marker map is within the cap, `enforceMaxDisplayedStrikes` is
the identity. -/
theorem enforce_of_le (cfg : LightningLayerConfig) (st : LightningLayerState)
    (h : st.markerEffects.length ≤ cfg.maxDisplayedStrikes) :
    enforceMaxDisplayedStrikes cfg st = st := by
  simp only [enforceMaxDisplayedStrikes]
  rw [if_pos h]

/-- Replace semantics of `createLightningBoltEffect` on a duplicate id,
when the new admission fits under the active cap: the old effect is
terminated and removed, the new one stored. -/
theorem createBolt_spec (cfg : LightningLayerConfig) (strike : StrikeEvent)
    (now : ℚ) (st : LightningLayerState) (hScene : cfg.hasScene = true)
    (hOld : mapHas st.lightningBoltEffects strike.id = true)
    (hActive : st.activeEffects.length < cfg.maxActiveAnimations) :
    (createLightningBoltEffect cfg strike now st).lightningBoltEffects =
      mapSet (mapDelete st.lightningBoltEffects strike.id) strike.id
        (mkBoltEffect cfg strike now) ∧
    (createLightningBoltEffect cfg strike now st).terminatedBoltIds =
      st.terminatedBoltIds ++ [strike.id] ∧
    (createLightningBoltEffect cfg strike now st).markerEffects =
      st.markerEffects ∧
    (createLightningBoltEffect cfg strike now st).terminatedMarkerIds =
      st.terminatedMarkerIds := by
  simp only [createLightningBoltEffect, hScene, hOld, Bool.not_true,
    Bool.false_eq_true, if_false, if_true]
  rw [ensureMax_of_le cfg _ (by simp; omega)]
  exact ⟨rfl, rfl, rfl, rfl⟩

/-- Replace semantics of `createMarkerEffect` on a duplicate id. -/
theorem createMarker_spec (cfg : LightningLayerConfig) (strike : StrikeEvent)
    (now : ℚ) (st : LightningLayerState) (hScene : cfg.hasScene = true)
    (hOld : mapHas st.markerEffects strike.id = true) :
    (createMarkerEffect cfg strike now st).markerEffects =
      mapSet (mapDelete st.markerEffects strike.id) strike.id
        (mkMarkerEffect cfg strike now) ∧
    (createMarkerEffect cfg strike now st).terminatedMarkerIds =
      st.terminatedMarkerIds ++ [strike.id] := by
  simp only [createMarkerEffect, hScene, hOld, Bool.not_true,
    Bool.false_eq_true, if_false, if_true]
  constructor <;> trivial

/-- Both key lists stay distinct along any operation sequence. -/
theorem foldl_applyOp_nodup (cfg : LightningLayerConfig) :
    ∀ (ops : List LayerOp) (st : LightningLayerState),
      (mapKeys st.lightningBoltEffects).Nodup →
      (mapKeys st.markerEffects).Nodup →
      (mapKeys (ops.foldl (applyOp cfg)
          st).lightningBoltEffects).Nodup ∧
        (mapKeys (ops.foldl (applyOp cfg) st).markerEffects).Nodup := by
  intro ops
  induction ops with
  | nil => intro st hb hm; exact ⟨hb, hm⟩
  | cons op rest ih =>
    intro st hb hm
    rw [List.foldl_cons]
    obtain ⟨hb1, hm1⟩ := applyOp_nodup cfg st op hb hm
    exact ih _ hb1 hm1

/-- **C8.** Admitting a strike whose id is already tracked is not an
error: the old strike effect and marker with that id are forcibly
terminated and removed first, then replaced by newly constructed ones, and
along every operation sequence each map holds at most one effect per id. -/
theorem duplicate_id_replace :
    (∀ (cfg : LightningLayerConfig) (ops : List LayerOp),
      (mapKeys (runOps cfg ops).lightningBoltEffects).Nodup ∧
      (mapKeys (runOps cfg ops).markerEffects).Nodup) ∧
    (∀ (cfg : LightningLayerConfig) (strike : StrikeEvent) (now : ℚ)
        (st : LightningLayerState),
      cfg.hasScene = true → cfg.showLightningBolt = true →
      mapHas st.lightningBoltEffects strike.id = true →
      mapHas st.markerEffects strike.id = true →
      st.activeEffects.length < cfg.maxActiveAnimations →
      st.markerEffects.length ≤ cfg.maxDisplayedStrikes →
      st.terminatedBoltIds = [] → st.terminatedMarkerIds = [] →
      mapGet? (addData cfg strike now st).lightningBoltEffects strike.id =
          some (mkBoltEffect cfg strike now) ∧
        mapGet? (addData cfg strike now st).markerEffects strike.id =
          some (mkMarkerEffect cfg strike now) ∧
        strike.id ∈ (addData cfg strike now st).terminatedBoltIds ∧
        strike.id ∈ (addData cfg strike now st).terminatedMarkerIds) := by
  constructor
  · intro cfg ops
    exact foldl_applyOp_nodup cfg ops emptyLayerState
      (by simp [emptyLayerState, mapKeys]) (by simp [emptyLayerState, mapKeys])
  · intro cfg strike now st hScene hShow hBoltOld hMarkOld hActive hMarkLen
      hLogB hLogM
    simp only [addData, hShow, if_true]
    obtain ⟨hb_eq, hbl_eq, hbm_eq, hbml_eq⟩ :=
      createBolt_spec cfg strike now st hScene hBoltOld hActive
    have hMarkOld1 : mapHas (createLightningBoltEffect cfg strike now
        st).markerEffects strike.id = true := by
      rw [hbm_eq]
      exact hMarkOld
    obtain ⟨hm_eq, hml_eq⟩ := createMarker_spec cfg strike now
      (createLightningBoltEffect cfg strike now st) hScene hMarkOld1
    have hlen2 : (createMarkerEffect cfg strike now
        (createLightningBoltEffect cfg strike now
          st)).markerEffects.length ≤ cfg.maxDisplayedStrikes := by
      rw [hm_eq, hbm_eq]
      have hdel := mapDelete_length_lt st.markerEffects strike.id hMarkOld
      have hset := mapSet_length_le
        (mapDelete st.markerEffects strike.id) strike.id
        (mkMarkerEffect cfg strike now)
      omega
    rw [enforce_of_le cfg _ hlen2]
    refine ⟨?_, ?_, ?_, ?_⟩
    · rw [createMarker_lightningBoltEffects, hb_eq]
      exact mapGet?_mapSet_of_not_has _ _ _ (mapHas_mapDelete_self _ _)
    · rw [hm_eq]
      exact mapGet?_mapSet_of_not_has _ _ _ (mapHas_mapDelete_self _ _)
    · rw [createMarker_terminatedBoltIds, hbl_eq, hLogB]
      simp
    · rw [hml_eq, hbml_eq, hLogM]
      simp

/-- Witness for C8: re-admitting id "a" over a registry already tracking
it replaces both effects and logs both forced terminations. -/
theorem duplicate_id_replace_witness :
    mapGet? (addData scenACfg (scenAStrike "a") 2
        dupState).lightningBoltEffects "a" =
      some (mkBoltEffect scenACfg (scenAStrike "a") 2) ∧
    "a" ∈ (addData scenACfg (scenAStrike "a") 2 dupState).terminatedBoltIds ∧
    "a" ∈ (addData scenACfg (scenAStrike "a") 2
      dupState).terminatedMarkerIds := by
  obtain ⟨h1, h2, h3, h4⟩ := duplicate_id_replace.2 scenACfg
    (scenAStrike "a") 2 dupState rfl rfl (by decide) (by decide) (by decide)
    (by decide) rfl rfl
  exact ⟨h1, h3, h4⟩

end OverviewClient








